import Mathlib

/-!
Shallow embedding of the Social Security projection engine from
`src/assets/js/main.js`.

Conventions of the embedding:
* JavaScript numbers are modelled as exact rationals (`ℚ`); the spec and the
  claims state the arithmetic mathematically, so no floating-point rounding is
  modelled.
* The JavaScript `NaN` that arises for an unknown survival probability is
  modelled by `Option ℚ`, with `none` standing for `NaN`/undefined; arithmetic
  on such values propagates `none`, exactly as `NaN` propagates through
  `+` and `*`.
* `Map.get` returning `undefined` is modelled by `Option`.
-/

namespace SocialCalc

/-- One result of the year simulator: the JS object
`{ endBalance, interestEarned }` returned by `computeYearEndWithTax`. -/
structure YearResult where
  endBalance : ℚ
  interestEarned : ℚ
  deriving DecidableEq, Repr

/-- The April tax adjustment applied to the running balance at the top of the
month loop (main.js lines 357-362): at month 4 only, when the prior year's
interest and the marginal tax rate are both positive, subtract
`priorYearInterest * (marginalTaxPct / 100)` and clamp the result at zero. -/
def taxAdjust (month : ℕ) (marginalTaxPct priorYearInterest balance : ℚ) : ℚ :=
  if month = 4 ∧ priorYearInterest > 0 ∧ marginalTaxPct > 0 then
    let taxDue := priorYearInterest * (marginalTaxPct / 100)
    let b := balance - taxDue
    if b < 0 then 0 else b
  else balance

/-- One iteration of the month loop of `computeYearEndWithTax`
(main.js lines 356-371).  The state is the pair
(running balance, interest earned so far this year).  After the April tax
adjustment, the month's interest `balance * rm` is added both to the balance
and to the interest accumulator, and then the monthly payment is added to the
balance. -/
def monthStep (monthlyPayment rm marginalTaxPct priorYearInterest : ℚ)
    (month : ℕ) (s : ℚ × ℚ) : ℚ × ℚ :=
  let balance := taxAdjust month marginalTaxPct priorYearInterest s.1
  let interest := balance * rm
  (balance + interest + monthlyPayment, s.2 + interest)

/-- The month loop `for (let month = 1; month <= 12; month++)` of
`computeYearEndWithTax`, run for the first `n` months: `runMonths … n s` is
the state after months `1, 2, …, n` have been processed in order starting
from state `s`. -/
def runMonths (monthlyPayment rm marginalTaxPct priorYearInterest : ℚ) :
    ℕ → ℚ × ℚ → ℚ × ℚ
  | 0, s => s
  | n + 1, s =>
      monthStep monthlyPayment rm marginalTaxPct priorYearInterest (n + 1)
        (runMonths monthlyPayment rm marginalTaxPct priorYearInterest n s)

/-- `computeYearEndWithTax` (main.js lines 351-374): simulate one calendar
year of monthly compounding with monthly benefit payments, applying the April
tax on the prior year's interest.  The monthly rate is
`annualRate / 100 / 12`; the balance starts at `startBalance` and the
interest accumulator at `0`, and the 12 months run in order. -/
def computeYearEndWithTax (startBalance monthlyPayment annualRate
    marginalTaxPct priorYearInterest : ℚ) : YearResult :=
  let rm := annualRate / 100 / 12
  let s := runMonths monthlyPayment rm marginalTaxPct priorYearInterest 12
    (startBalance, 0)
  ⟨s.1, s.2⟩

/-- `computeAdjustedBenefit` (main.js lines 387-404): SSA-style monthly
adjustment of the full (age-67) benefit for the chosen retirement age.
At the full retirement age 67 the benefit is unchanged; for delayed
retirement the increase is a linear (non-compounded) 8% per year; for early
retirement the first 36 months early each reduce the benefit by 5/9 of 1%
and every further month by 5/12 of 1%. -/
def computeAdjustedBenefit (fullBenefit : ℚ) (retireAge : ℤ) : ℚ :=
  if retireAge = 67 then fullBenefit
  else if retireAge > 67 then
    let yearsDelayed : ℤ := retireAge - 67
    fullBenefit * (1 + 8 / 100 * (yearsDelayed : ℚ))
  else
    let monthsEarly : ℤ := (67 - retireAge) * 12
    let perMonthFirst : ℚ := 5 / 9 / 100
    let perMonthAfter : ℚ := 5 / 12 / 100
    if monthsEarly ≤ 36 then
      fullBenefit * (1 - (monthsEarly : ℚ) * perMonthFirst)
    else
      fullBenefit * (1 - (36 * perMonthFirst + ((monthsEarly - 36 : ℤ) : ℚ) * perMonthAfter))

/-- A calendar date as `main.js` reads it off a JS `Date`: `getFullYear`,
`getMonth` (0-based month) and `getDate` (day of month). -/
structure SimpleDate where
  year : ℤ
  month : ℕ
  day : ℕ
  deriving DecidableEq, Repr

/-- `getAgeYears` (main.js lines 211-221): whole completed years between
`birth` and `asOf` — the year difference, decremented by one when the
`asOf` month/day precedes the birth month/day. -/
def getAgeYears (birth asOf : SimpleDate) : ℤ :=
  let age := asOf.year - birth.year
  if asOf.month < birth.month ∨ (asOf.month = birth.month ∧ asOf.day < birth.day) then
    age - 1
  else age

/-- The in-memory life table: `selectedDatasetMap` (a `Map` from integer age
to survivor count, `undefined` being modelled by `none`) together with
`selectedDatasetMaxAge`. -/
structure LifeTable where
  survivorsByAge : ℤ → Option ℚ
  maxAge : ℤ

/-- The five user inputs `calculateSchedule` reads (main.js lines 249-267):
the birth date and the four numeric inputs. -/
structure ProjectionInputs where
  birth : SimpleDate
  fullRetirementBenefit : ℚ
  annualRate : ℚ
  taxPct : ℚ
  retirementAge : ℤ
  deriving DecidableEq

/-- One emitted table row of `calculateSchedule`: calendar year, age,
survival probability (`none` = `NaN`, rendered as unknown), end-of-year
balance and cumulative expected value, plus the year's interest (the loop
variable `interestEarnedThisYear` carried forward as next year's
`priorYearInterest`). -/
structure ProjectionRow where
  age : ℤ
  calendarYear : ℤ
  survivalProb : Option ℚ
  endOfYearBalance : ℚ
  interestEarnedThisYear : ℚ
  expectedValue : Option ℚ
  deriving DecidableEq, Repr

/-- The loop state of `calculateSchedule` carried from one age to the next:
`balance`, `priorYearInterest` and the running `expectedValue`
(main.js lines 258-260, 344-345). -/
structure ProjState where
  balance : ℚ
  priorYearInterest : ℚ
  expectedValue : Option ℚ
  deriving DecidableEq

/-- The survival-probability computation of one row
(main.js lines 295-305): certainty `1.0` for ages at or below the user's
current age; otherwise `min 1 (targetNum / baseNum)` when the table has the
age and `baseNum > 0`, and `NaN` (here `none`) otherwise. -/
def survivalProbOf (userAge : ℤ) (lt : LifeTable) (baseNum : ℚ) (age : ℤ) :
    Option ℚ :=
  if age ≤ userAge then some 1
  else
    match lt.survivorsByAge age with
    | some targetNum => if baseNum > 0 then some (min 1 (targetNum / baseNum)) else none
    | none => none

/-- One iteration of the age loop of `calculateSchedule`
(main.js lines 285-346): build the row for `age` from the loop state and
return the row together with the updated state.  The expected value is
`endBal * survivalProb` for the first row (`age = 62`, the loop's
`startAge`) and `priorExpectedValue + yearActivity * survivalProb`
afterwards, with `NaN` (`none`) propagating through both formulas. -/
def projRowStep (retirementAge : ℤ) (monthlyBenefitNet annualRate taxPct : ℚ)
    (userAge : ℤ) (lt : LifeTable) (baseNum : ℚ) (birthYear : ℤ)
    (age : ℤ) (s : ProjState) : ProjectionRow × ProjState :=
  let survivalProb := survivalProbOf userAge lt baseNum age
  let monthlyPaymentThisYear := if age ≥ retirementAge then monthlyBenefitNet else 0
  let res := computeYearEndWithTax s.balance monthlyPaymentThisYear annualRate
    taxPct s.priorYearInterest
  let endBal := res.endBalance
  let interestEarnedThisYear := res.interestEarned
  let yearActivity := monthlyPaymentThisYear * 12 + interestEarnedThisYear
  let expectedValue : Option ℚ :=
    if age = 62 then survivalProb.map fun p => endBal * p
    else do
      let e ← s.expectedValue
      let p ← survivalProb
      pure (e + yearActivity * p)
  (⟨age, birthYear + age, survivalProb, endBal, interestEarnedThisYear, expectedValue⟩,
   ⟨endBal, interestEarnedThisYear, expectedValue⟩)

/-- Run an age-loop body over a list of ages, threading the loop state, and
collect the emitted rows in order. -/
def runRows (step : ℤ → ProjState → ProjectionRow × ProjState) :
    List ℤ → ProjState → List ProjectionRow
  | [], _ => []
  | age :: rest, s =>
      let pr := step age s
      pr.1 :: runRows step rest pr.2

/-- `n` consecutive integers counting up from `start`. -/
def ageList (start : ℤ) : ℕ → List ℤ
  | 0 => []
  | n + 1 => start :: ageList (start + 1) n

/-- The ages visited by `for (let age = 62; age <= maxAge; age++)`:
`62, 63, …, maxAge` in increasing order (empty when `maxAge < 62`). -/
def ageRange (maxAge : ℤ) : List ℤ :=
  ageList 62 (maxAge - 61).toNat

/-- Outcome of a projection run: either the `NoDataForAge` signal (main.js
lines 279-282, the early return with the "no data for age" message) carrying
the queried age, or the emitted row sequence. -/
inductive ProjectionResult where
  | noDataForAge (age : ℤ)
  | rows (rs : List ProjectionRow)
  deriving DecidableEq

/-- The rows carried by a projection result; the `NoDataForAge` path emits
none (the table body stays cleared). -/
def ProjectionResult.rowList : ProjectionResult → List ProjectionRow
  | .noDataForAge _ => []
  | .rows rs => rs

/-- `calculateSchedule` (main.js lines 248-348), for a valid birth date:
compute the adjusted and net monthly benefit, compute the user's current age
from the birth date and today's date, look up the base survivor count
(signalling `NoDataForAge` when absent), then run the age loop from 62 to
`lt.maxAge` starting from a zero balance, zero prior-year interest and a
zero expected-value accumulator. -/
def calculateSchedule (inputs : ProjectionInputs) (lt : LifeTable)
    (today : SimpleDate) : ProjectionResult :=
  let adjustedMonthlyBenefit :=
    computeAdjustedBenefit inputs.fullRetirementBenefit inputs.retirementAge
  let monthlyBenefitNet := adjustedMonthlyBenefit * (1 - inputs.taxPct / 100)
  let userAge := getAgeYears inputs.birth today
  match lt.survivorsByAge userAge with
  | none => ProjectionResult.noDataForAge userAge
  | some baseNum =>
      ProjectionResult.rows
        (runRows
          (projRowStep inputs.retirementAge monthlyBenefitNet inputs.annualRate
            inputs.taxPct userAge lt baseNum inputs.birth.year)
          (ageRange lt.maxAge)
          ⟨0, 0, some 0⟩)

/-- The loop state a row leaves behind: its end balance, its interest and its
expected value (main.js lines 344-345 plus the running `expectedValue`). -/
def stateOfRow (r : ProjectionRow) : ProjState :=
  ⟨r.endOfYearBalance, r.interestEarnedThisYear, r.expectedValue⟩

/-!
Spec-side restatement of the year simulator, transcribed from the spec's
algorithm description of `simulateYear` (§4.2: twelve months in order; at
month 4 only, when prior interest and tax rate are positive, subtract
`priorYearInterest * marginalTaxPct/100` clamped at zero; each month's
interest is the pre-payment balance times `annualRatePct/100/12`, added to
both the balance and the accumulator, then the monthly payment is added).
Used only to compare the code's `computeYearEndWithTax` against the spec's
wording.
-/

/-- Spec-side balance after month `m` (month 0 = the start of the year). -/
def specBalAfter (startBalance monthlyPayment annualRatePct marginalTaxPct
    priorYearInterest : ℚ) : ℕ → ℚ
  | 0 => startBalance
  | m + 1 =>
      let prev := specBalAfter startBalance monthlyPayment annualRatePct
        marginalTaxPct priorYearInterest m
      let pre := if m + 1 = 4 ∧ 0 < priorYearInterest ∧ 0 < marginalTaxPct then
          max 0 (prev - priorYearInterest * marginalTaxPct / 100)
        else prev
      pre + pre * (annualRatePct / 100 / 12) + monthlyPayment

/-- Spec-side balance of month `m ≥ 1` after the (possible) April tax
deduction but before that month's interest and payment. -/
def specPreBal (startBalance monthlyPayment annualRatePct marginalTaxPct
    priorYearInterest : ℚ) (m : ℕ) : ℚ :=
  let prev := specBalAfter startBalance monthlyPayment annualRatePct
    marginalTaxPct priorYearInterest (m - 1)
  if m = 4 ∧ 0 < priorYearInterest ∧ 0 < marginalTaxPct then
    max 0 (prev - priorYearInterest * marginalTaxPct / 100)
  else prev

/-- Spec-side interest accrued in month `m ≥ 1`. -/
def specMonthlyInterest (startBalance monthlyPayment annualRatePct
    marginalTaxPct priorYearInterest : ℚ) (m : ℕ) : ℚ :=
  specPreBal startBalance monthlyPayment annualRatePct marginalTaxPct
    priorYearInterest m * (annualRatePct / 100 / 12)

/-!
Concrete inputs used to witness the claim theorems.
-/

/-- Witness inputs: zero benefit, zero rate, zero tax, retirement at 67,
born 1950-01-01 (JS month 0, day 1). -/
def wInp : ProjectionInputs := ⟨⟨1950, 0, 1⟩, 0, 0, 0, 67⟩

/-- Witness "today": 2026-10-11 (JS month 9, day 11), so the user is 76. -/
def wToday : SimpleDate := ⟨2026, 9, 11⟩

/-- Witness life table: 100 survivors at every age, max age 63. -/
def wLt : LifeTable := ⟨fun _ => some 100, 63⟩

/-- The two rows `calculateSchedule wInp wLt wToday` emits. -/
def wRows : List ProjectionRow :=
  [⟨62, 2012, some 1, 0, 0, some 0⟩, ⟨63, 2013, some 1, 0, 0, some 0⟩]

/-- Witness inputs for the NaN-poisoning claim: like `wInp` but born
1970-01-01, so the user is 56. -/
def wInpNaN : ProjectionInputs := ⟨⟨1970, 0, 1⟩, 0, 0, 0, 67⟩

/-- Witness life table with data only at age 56: every projected age 62..63
is beyond the user's age and missing, so its survival probability is `NaN`. -/
def wLtNaN : LifeTable := ⟨fun a => if a = 56 then some 100 else (none : Option ℚ), 63⟩

/-- The rows `calculateSchedule wInpNaN wLtNaN wToday` emits: survival
probabilities and expected values are all undefined, balances unaffected. -/
def wRowsNaN : List ProjectionRow :=
  [⟨62, 2032, none, 0, 0, none⟩, ⟨63, 2033, none, 0, 0, none⟩]

/-- Witness life table with no entries at all (max age 70). -/
def wLtEmpty : LifeTable := ⟨fun _ => (none : Option ℚ), 70⟩

/-- Counterexample inputs: born 1996-01-01 (user age 30 on `wToday`). -/
def cInp : ProjectionInputs := ⟨⟨1996, 0, 1⟩, 1000, 5, 0, 67⟩

/-- Counterexample life table: ages 0..50 present, so `maxAge = 50 < 62`
while the user's current age 30 is present. -/
def cLt : LifeTable := ⟨fun a => if 0 ≤ a ∧ a ≤ 50 then some 1000 else none, 50⟩

/-!
Theorems.
-/

theorem runMonths_zero (n : ℕ) (s : ℚ × ℚ) : runMonths 0 0 0 0 n s = s := by
  induction n with
  | zero => rfl
  | succ n ih => rw [runMonths, ih]; simp [monthStep, taxAdjust]

theorem computeYearEndWithTax_zero (sb : ℚ) :
    computeYearEndWithTax sb 0 0 0 0 = ⟨sb, 0⟩ := by
  have h0 : (0 : ℚ) / 100 / 12 = 0 := by norm_num
  simp only [computeYearEndWithTax, h0, runMonths_zero]

theorem ite_lt_zero_eq_max (x : ℚ) : (if x < 0 then 0 else x) = max 0 x := by
  rcases lt_or_le x 0 with h | h
  · simp [h, max_eq_left h.le]
  · simp [not_lt.2 h, max_eq_right h]

theorem taxAdjust_eq_specPreBal (sb mp r t pI : ℚ) (n : ℕ) :
    taxAdjust (n + 1) t pI (specBalAfter sb mp r t pI n) =
      specPreBal sb mp r t pI (n + 1) := by
  simp only [taxAdjust, specPreBal, Nat.add_sub_cancel]
  by_cases h : n + 1 = 4 ∧ 0 < pI ∧ 0 < t
  · simp only [if_pos h]
    rw [ite_lt_zero_eq_max, ← mul_div_assoc]
  · simp only [if_neg h]

theorem specBalAfter_succ (sb mp r t pI : ℚ) (n : ℕ) :
    specBalAfter sb mp r t pI (n + 1) =
      specPreBal sb mp r t pI (n + 1) +
        specMonthlyInterest sb mp r t pI (n + 1) + mp := by
  simp only [specBalAfter, specPreBal, specMonthlyInterest, Nat.add_sub_cancel]

theorem runMonths_eq_spec (sb mp r t pI : ℚ) (n : ℕ) :
    runMonths mp (r / 100 / 12) t pI n (sb, 0) =
      (specBalAfter sb mp r t pI n,
        ∑ m ∈ Finset.Icc 1 n, specMonthlyInterest sb mp r t pI m) := by
  induction n with
  | zero => simp [runMonths, specBalAfter]
  | succ n ih =>
      rw [runMonths, ih, specBalAfter_succ,
        Finset.sum_Icc_succ_top (Nat.succ_le_succ (Nat.zero_le n))]
      simp only [monthStep, taxAdjust_eq_specPreBal, specMonthlyInterest]

/-- C2: `computeYearEndWithTax` iterates exactly 12 months in order; at month
4 only, when the prior year's interest and the tax rate are positive, it
subtracts `priorYearInterest * marginalTaxPct/100` from the running balance
before that month's interest; each month it adds `balance * (rate/100/12)`
to both the balance and the interest accumulator and then adds the monthly
payment; the returned interest is the sum of the twelve monthly interest
amounts and is not reduced by the tax deduction.  In particular
`simulateYear(1000, 0, 0, 0, 0)` returns balance `1000` and interest `0`. -/
theorem simulateYear_matches_monthly_spec :
    (∀ startBalance monthlyPayment annualRatePct marginalTaxPct
        priorYearInterest : ℚ,
      computeYearEndWithTax startBalance monthlyPayment annualRatePct
          marginalTaxPct priorYearInterest =
        ⟨specBalAfter startBalance monthlyPayment annualRatePct marginalTaxPct
            priorYearInterest 12,
          ∑ m ∈ Finset.Icc 1 12, specMonthlyInterest startBalance
            monthlyPayment annualRatePct marginalTaxPct priorYearInterest m⟩) ∧
    computeYearEndWithTax 1000 0 0 0 0 = ⟨1000, 0⟩ := by
  refine ⟨fun sb mp r t pI => ?_, computeYearEndWithTax_zero 1000⟩
  simp only [computeYearEndWithTax, runMonths_eq_spec]

/-- C3: the April tax deduction never drives the balance negative: from a
non-negative running balance, the post-deduction balance is clamped at zero
— even when `priorYearInterest * marginalTaxPct/100` exceeds the balance —
and the month's interest accrual and payment continue from that clamped
balance. -/
theorem april_tax_clamp_safety :
    (∀ (month : ℕ) (t pI b : ℚ), 0 ≤ b → 0 ≤ taxAdjust month t pI b) ∧
    (∀ (mp rm t pI : ℚ) (month : ℕ) (b acc : ℚ),
      monthStep mp rm t pI month (b, acc) =
        (taxAdjust month t pI b * (1 + rm) + mp,
         acc + taxAdjust month t pI b * rm)) := by
  constructor
  · intro month t pI b hb
    simp only [taxAdjust]
    split
    · split
      · exact le_refl 0
      · next h => exact le_of_not_lt h
    · exact hb
  · intro mp rm t pI month b acc
    simp only [monthStep, Prod.mk.injEq]
    constructor <;> ring_nf

theorem april_tax_clamp_safety_witness :
    (0 : ℚ) ≤ 100 ∧ 0 ≤ taxAdjust 4 50 1000 100 ∧
      taxAdjust 4 50 1000 100 = 0 :=
  ⟨by norm_num, april_tax_clamp_safety.1 4 50 1000 100 (by norm_num),
   by norm_num [taxAdjust]⟩

theorem computeAdjustedBenefit_delayed (B : ℚ) (a : ℤ) (h : 67 < a) :
    computeAdjustedBenefit B a = B * (1 + 8 / 100 * ((a - 67 : ℤ) : ℚ)) := by
  simp only [computeAdjustedBenefit]
  rw [if_neg (by omega), if_pos h]

/-- C4: for every integer retirement age below 67 the adjusted benefit is
the full benefit times one minus the reduction fraction
`min(monthsEarly,36)·5/900 + max(0,monthsEarly−36)·5/1200` with
`monthsEarly = (67−retireAge)·12` and no floor applied; in particular
`adjust(1000, 62) = 700`. -/
theorem earlyRetirement_reduction_formula (fullBenefit : ℚ) (retireAge : ℤ)
    (h : retireAge < 67) :
    computeAdjustedBenefit fullBenefit retireAge =
      fullBenefit * (1 -
        (((min ((67 - retireAge) * 12) 36 : ℤ) : ℚ) * (5 / 900) +
          ((max 0 ((67 - retireAge) * 12 - 36) : ℤ) : ℚ) * (5 / 1200))) ∧
    computeAdjustedBenefit 1000 62 = 700 := by
  constructor
  · simp only [computeAdjustedBenefit]
    rw [if_neg (by omega), if_neg (by omega)]
    by_cases hle : (67 - retireAge) * 12 ≤ 36
    · rw [if_pos hle, min_eq_left hle, max_eq_left (by omega)]
      push_cast
      ring_nf
    · rw [if_neg hle, min_eq_right (by omega), max_eq_right (by omega)]
      push_cast
      ring_nf
  · norm_num [computeAdjustedBenefit]

theorem earlyRetirement_reduction_formula_witness :
    (62 : ℤ) < 67 ∧
    (computeAdjustedBenefit 1000 62 =
        1000 * (1 - (((min ((67 - 62) * 12) 36 : ℤ) : ℚ) * (5 / 900) +
          ((max 0 ((67 - 62) * 12 - 36) : ℤ) : ℚ) * (5 / 1200))) ∧
      computeAdjustedBenefit 1000 62 = 700) :=
  ⟨by norm_num, earlyRetirement_reduction_formula 1000 62 (by norm_num)⟩

/-- C5: for every integer retirement age above 67 the adjusted benefit is a
linear, non-compounded 8% increase per full year of delay,
`fullBenefit * (1 + 0.08 * (retireAge − 67))`; in particular
`adjust(1000, 70) = 1240`. -/
theorem delayedRetirement_formula (fullBenefit : ℚ) (retireAge : ℤ)
    (h : 67 < retireAge) :
    computeAdjustedBenefit fullBenefit retireAge =
      fullBenefit * (1 + 8 / 100 * ((retireAge - 67 : ℤ) : ℚ)) ∧
    computeAdjustedBenefit 1000 70 = 1240 :=
  ⟨computeAdjustedBenefit_delayed fullBenefit retireAge h,
   by norm_num [computeAdjustedBenefit]⟩

theorem delayedRetirement_formula_witness :
    (67 : ℤ) < 70 ∧
    (computeAdjustedBenefit 1000 70 =
        1000 * (1 + 8 / 100 * ((70 - 67 : ℤ) : ℚ)) ∧
      computeAdjustedBenefit 1000 70 = 1240) :=
  ⟨by norm_num, delayedRetirement_formula 1000 70 (by norm_num)⟩

/-- C6: the adjuster is the identity at the full retirement age 67, and for
a positive benefit it is strictly monotone in the retirement age beyond
67. -/
theorem adjust_fra_identity_and_delayed_mono :
    (∀ B : ℚ, computeAdjustedBenefit B 67 = B) ∧
    (∀ (B : ℚ) (age1 age2 : ℤ), 0 < B → 67 < age1 → age1 < age2 →
      computeAdjustedBenefit B age1 < computeAdjustedBenefit B age2) := by
  constructor
  · intro B
    simp [computeAdjustedBenefit]
  · intro B a1 a2 hB h1 h12
    rw [computeAdjustedBenefit_delayed B a1 h1,
      computeAdjustedBenefit_delayed B a2 (h1.trans h12)]
    have hc : (a1 : ℚ) < (a2 : ℚ) := by exact_mod_cast h12
    push_cast
    nlinarith [hB, hc]

theorem adjust_fra_identity_and_delayed_mono_witness :
    computeAdjustedBenefit 5 67 = 5 ∧
    ((0 : ℚ) < 1 ∧ (67 : ℤ) < 68 ∧ (68 : ℤ) < 69 ∧
      computeAdjustedBenefit 1 68 < computeAdjustedBenefit 1 69) :=
  ⟨adjust_fra_identity_and_delayed_mono.1 5,
   by norm_num, by norm_num, by norm_num,
   adjust_fra_identity_and_delayed_mono.2 1 68 69 (by norm_num) (by norm_num)
     (by norm_num)⟩

theorem ageList_length (n : ℕ) : ∀ start : ℤ, (ageList start n).length = n := by
  induction n with
  | zero => intro start; rfl
  | succ n ih => intro start; simp [ageList, ih]

theorem ageList_get? (n : ℕ) :
    ∀ (start : ℤ) (i : ℕ) (a : ℤ),
      (ageList start n).get? i = some a → a = start + (i : ℤ) := by
  induction n with
  | zero => intro start i a h; simp [ageList] at h
  | succ n ih =>
      intro start i a h
      cases i with
      | zero =>
          simp only [ageList, List.get?_cons_zero] at h
          injection h with h
          omega
      | succ i =>
          simp only [ageList, List.get?_cons_succ] at h
          have := ih (start + 1) i a h
          push_cast
          omega

theorem runRows_length (step : ℤ → ProjState → ProjectionRow × ProjState) :
    ∀ (ages : List ℤ) (s : ProjState),
      (runRows step ages s).length = ages.length := by
  intro ages
  induction ages with
  | nil => intro s; rfl
  | cons a rest ih => intro s; simp [runRows, ih]

theorem runRows_get?_zero (step : ℤ → ProjState → ProjectionRow × ProjState)
    (ages : List ℤ) (s : ProjState) (a : ℤ) (r : ProjectionRow)
    (ha : ages.get? 0 = some a)
    (hr : (runRows step ages s).get? 0 = some r) :
    r = (step a s).1 := by
  cases ages with
  | nil => simp at ha
  | cons a0 rest =>
      simp only [List.get?_cons_zero] at ha
      injection ha with ha
      subst ha
      simp only [runRows, List.get?_cons_zero] at hr
      injection hr with hr
      exact hr.symm

theorem runRows_get?_shape (step : ℤ → ProjState → ProjectionRow × ProjState) :
    ∀ (ages : List ℤ) (s : ProjState) (i : ℕ) (r : ProjectionRow),
      (runRows step ages s).get? i = some r →
      ∃ a s', ages.get? i = some a ∧ r = (step a s').1 := by
  intro ages
  induction ages with
  | nil => intro s i r hr; simp [runRows] at hr
  | cons a0 rest ih =>
      intro s i r hr
      simp only [runRows] at hr
      cases i with
      | zero =>
          simp only [List.get?_cons_zero] at hr
          injection hr with hr
          exact ⟨a0, s, rfl, hr.symm⟩
      | succ i =>
          simp only [List.get?_cons_succ] at hr
          obtain ⟨a, s', ha, hr⟩ := ih (step a0 s).2 i r hr
          exact ⟨a, s', ha, hr⟩

theorem runRows_get?_chain (step : ℤ → ProjState → ProjectionRow × ProjState)
    (hstep : ∀ a s, (step a s).2 = stateOfRow (step a s).1) :
    ∀ (ages : List ℤ) (s : ProjState) (i : ℕ) (a : ℤ)
      (r r' : ProjectionRow),
      (runRows step ages s).get? i = some r →
      (runRows step ages s).get? (i + 1) = some r' →
      ages.get? (i + 1) = some a →
      r' = (step a (stateOfRow r)).1 := by
  intro ages
  induction ages with
  | nil => intro s i a r r' hr hr' ha; simp [runRows] at hr
  | cons a0 rest ih =>
      intro s i a r r' hr hr' ha
      simp only [runRows, List.get?_cons_succ] at hr hr'
      simp only [List.get?_cons_succ] at ha
      cases i with
      | zero =>
          simp only [List.get?_cons_zero] at hr
          injection hr with hr
          rw [← hr, ← hstep a0 s]
          exact runRows_get?_zero step rest (step a0 s).2 a r' ha hr'
      | succ i =>
          exact ih (step a0 s).2 i a r r' hr hr' ha

theorem projRowStep_snd (R : ℤ) (net r t : ℚ) (u : ℤ) (lt : LifeTable)
    (b : ℚ) (byr : ℤ) (a : ℤ) (s : ProjState) :
    (projRowStep R net r t u lt b byr a s).2 =
      stateOfRow (projRowStep R net r t u lt b byr a s).1 := rfl

theorem calculateSchedule_eq_rows (inputs : ProjectionInputs) (lt : LifeTable)
    (today : SimpleDate) (baseNum : ℚ)
    (hbase : lt.survivorsByAge (getAgeYears inputs.birth today) = some baseNum) :
    calculateSchedule inputs lt today =
      ProjectionResult.rows
        (runRows
          (projRowStep inputs.retirementAge
            (computeAdjustedBenefit inputs.fullRetirementBenefit
                inputs.retirementAge * (1 - inputs.taxPct / 100))
            inputs.annualRate inputs.taxPct (getAgeYears inputs.birth today)
            lt baseNum inputs.birth.year)
          (ageRange lt.maxAge) ⟨0, 0, some 0⟩) := by
  simp only [calculateSchedule]
  rw [hbase]

theorem calculateSchedule_eq_noData (inputs : ProjectionInputs)
    (lt : LifeTable) (today : SimpleDate)
    (hnone : lt.survivorsByAge (getAgeYears inputs.birth today) = none) :
    calculateSchedule inputs lt today =
      ProjectionResult.noDataForAge (getAgeYears inputs.birth today) := by
  simp only [calculateSchedule]
  rw [hnone]

/-- C1: in every projection run, with `netMonthlyBenefit` the adjusted
benefit net of tax and each row's monthly payment equal to
`netMonthlyBenefit` for ages at or past the retirement age and zero before,
the first emitted row (age 62) has
`expectedValue = endOfYearBalance * survivalProbability`, and every
subsequent row has `expectedValue = prior expectedValue +
(monthlyPayment*12 + interestEarnedThisYear) * survivalProbability`; the
April tax deduction is not subtracted from this year-activity increment. -/
theorem expectedValue_recurrence
    (inputs : ProjectionInputs) (lt : LifeTable) (today : SimpleDate)
    (rs : List ProjectionRow)
    (hrun : calculateSchedule inputs lt today = ProjectionResult.rows rs)
    (netMonthlyBenefit : ℚ)
    (hnet : netMonthlyBenefit =
      computeAdjustedBenefit inputs.fullRetirementBenefit inputs.retirementAge *
        (1 - inputs.taxPct / 100)) :
    (∀ r : ProjectionRow, rs.get? 0 = some r →
      r.age = 62 ∧
        r.expectedValue = r.survivalProb.map fun p => r.endOfYearBalance * p) ∧
    (∀ (i : ℕ) (r r' : ProjectionRow), rs.get? i = some r →
      rs.get? (i + 1) = some r' →
      r'.expectedValue = do
        let e ← r.expectedValue
        let p ← r'.survivalProb
        pure (e + ((if r'.age ≥ inputs.retirementAge then netMonthlyBenefit
            else 0) * 12 + r'.interestEarnedThisYear) * p)) := by
  subst hnet
  rcases hbase : lt.survivorsByAge (getAgeYears inputs.birth today) with _ | baseNum
  · rw [calculateSchedule_eq_noData inputs lt today hbase] at hrun
    cases hrun
  · rw [calculateSchedule_eq_rows inputs lt today baseNum hbase] at hrun
    injection hrun with hrun
    constructor
    · intro r h0
      rw [← hrun] at h0
      obtain ⟨a, s', ha, hr⟩ := runRows_get?_shape _ _ _ 0 r h0
      simp only [ageRange] at ha
      have ha62 : a = 62 := by
        have := ageList_get? _ _ _ _ ha
        omega
      subst ha62
      subst hr
      constructor
      · rfl
      · simp [projRowStep]
    · intro i r r' hr hr'
      rw [← hrun] at hr hr'
      obtain ⟨a, s', ha, _⟩ := runRows_get?_shape _ _ _ (i + 1) r' hr'
      have hchain := runRows_get?_chain _
        (projRowStep_snd inputs.retirementAge _ inputs.annualRate inputs.taxPct
          _ lt baseNum inputs.birth.year) _ _ i a r r' hr hr' ha
      have hane : a ≠ 62 := by
        simp only [ageRange] at ha
        have := ageList_get? _ _ _ _ ha
        omega
      subst hchain
      simp only [projRowStep, stateOfRow]
      rw [if_neg hane]

theorem wRun : calculateSchedule wInp wLt wToday = ProjectionResult.rows wRows := by
  norm_num [calculateSchedule, computeAdjustedBenefit, getAgeYears, wInp, wLt,
    wToday, wRows, ageRange, ageList, runRows, projRowStep, survivalProbOf,
    computeYearEndWithTax_zero]

theorem wNet : (0 : ℚ) =
    computeAdjustedBenefit wInp.fullRetirementBenefit wInp.retirementAge *
      (1 - wInp.taxPct / 100) := by
  norm_num [computeAdjustedBenefit, wInp]

theorem expectedValue_recurrence_witness :
    (calculateSchedule wInp wLt wToday = ProjectionResult.rows wRows ∧
      (0 : ℚ) = computeAdjustedBenefit wInp.fullRetirementBenefit
        wInp.retirementAge * (1 - wInp.taxPct / 100)) ∧
    (∀ r : ProjectionRow, wRows.get? 0 = some r →
      r.age = 62 ∧
        r.expectedValue = r.survivalProb.map fun p => r.endOfYearBalance * p) ∧
    (∀ (i : ℕ) (r r' : ProjectionRow), wRows.get? i = some r →
      wRows.get? (i + 1) = some r' →
      r'.expectedValue = do
        let e ← r.expectedValue
        let p ← r'.survivalProb
        pure (e + ((if r'.age ≥ wInp.retirementAge then (0 : ℚ) else 0) * 12 +
          r'.interestEarnedThisYear) * p)) :=
  ⟨⟨wRun, wNet⟩,
   (expectedValue_recurrence wInp wLt wToday wRows wRun 0 wNet).1,
   (expectedValue_recurrence wInp wLt wToday wRows wRun 0 wNet).2⟩

/-- C7: in every projection run, a row whose age is at most the user's
current age has survival probability exactly 1; otherwise, when the life
table contains the row's age and the base survivor count is positive, the
probability is `min 1 (targetNum / baseNum)`, and otherwise (age missing,
or base count not positive) it is undefined (`none`), never zero. -/
theorem survival_probability_rule
    (inputs : ProjectionInputs) (lt : LifeTable) (today : SimpleDate)
    (rs : List ProjectionRow) (baseNum : ℚ)
    (hrun : calculateSchedule inputs lt today = ProjectionResult.rows rs)
    (hbase : lt.survivorsByAge (getAgeYears inputs.birth today) = some baseNum) :
    ∀ (i : ℕ) (r : ProjectionRow), rs.get? i = some r →
      (r.age ≤ getAgeYears inputs.birth today → r.survivalProb = some 1) ∧
      (getAgeYears inputs.birth today < r.age →
        (∀ targetNum : ℚ, lt.survivorsByAge r.age = some targetNum →
          (0 < baseNum → r.survivalProb = some (min 1 (targetNum / baseNum))) ∧
          (baseNum ≤ 0 → r.survivalProb = none)) ∧
        (lt.survivorsByAge r.age = none → r.survivalProb = none)) := by
  rw [calculateSchedule_eq_rows inputs lt today baseNum hbase] at hrun
  injection hrun with hrun
  intro i r hr
  rw [← hrun] at hr
  obtain ⟨a, s', ha, hshape⟩ := runRows_get?_shape _ _ _ i r hr
  subst hshape
  simp only [projRowStep]
  constructor
  · intro hle
    simp [survivalProbOf, hle]
  · intro hgt
    have hnle : ¬ a ≤ getAgeYears inputs.birth today := not_le.mpr hgt
    constructor
    · intro tn htn
      constructor
      · intro hbpos
        simp [survivalProbOf, hnle, htn, hbpos]
      · intro hble
        simp [survivalProbOf, hnle, htn, not_lt.mpr hble]
    · intro hnone
      simp [survivalProbOf, hnle, hnone]

theorem survival_probability_rule_witness :
    wLt.survivorsByAge (getAgeYears wInp.birth wToday) = some 100 ∧
    (∀ (i : ℕ) (r : ProjectionRow), wRows.get? i = some r →
      (r.age ≤ getAgeYears wInp.birth wToday → r.survivalProb = some 1) ∧
      (getAgeYears wInp.birth wToday < r.age →
        (∀ targetNum : ℚ, wLt.survivorsByAge r.age = some targetNum →
          (0 < (100 : ℚ) → r.survivalProb = some (min 1 (targetNum / 100))) ∧
          ((100 : ℚ) ≤ 0 → r.survivalProb = none)) ∧
        (wLt.survivorsByAge r.age = none → r.survivalProb = none))) :=
  ⟨rfl, survival_probability_rule wInp wLt wToday wRows 100 wRun rfl⟩

/-- C8: when the life table has no entry for the user's computed current age
— the completed whole years between the birth date and today, decremented by
one when today's month/day precedes the birth month/day — the engine
produces zero rows and signals `NoDataForAge` carrying that exact age. -/
theorem noDataForAge_signal
    (inputs : ProjectionInputs) (lt : LifeTable) (today : SimpleDate)
    (hmiss : lt.survivorsByAge (getAgeYears inputs.birth today) = none) :
    calculateSchedule inputs lt today =
      ProjectionResult.noDataForAge (getAgeYears inputs.birth today) ∧
    (calculateSchedule inputs lt today).rowList = [] ∧
    (∀ birth asOf : SimpleDate, getAgeYears birth asOf =
      asOf.year - birth.year -
        (if asOf.month < birth.month ∨
            (asOf.month = birth.month ∧ asOf.day < birth.day) then 1 else 0)) := by
  refine ⟨calculateSchedule_eq_noData inputs lt today hmiss, ?_, ?_⟩
  · rw [calculateSchedule_eq_noData inputs lt today hmiss]
    rfl
  · intro birth asOf
    by_cases h : asOf.month < birth.month ∨
      (asOf.month = birth.month ∧ asOf.day < birth.day)
    · simp [getAgeYears, h]
    · simp [getAgeYears, h]

theorem noDataForAge_signal_witness :
    wLtEmpty.survivorsByAge (getAgeYears wInp.birth wToday) = none ∧
    getAgeYears wInp.birth wToday = 76 ∧
    (calculateSchedule wInp wLtEmpty wToday =
        ProjectionResult.noDataForAge (getAgeYears wInp.birth wToday) ∧
      (calculateSchedule wInp wLtEmpty wToday).rowList = [] ∧
      (∀ birth asOf : SimpleDate, getAgeYears birth asOf =
        asOf.year - birth.year -
          (if asOf.month < birth.month ∨
              (asOf.month = birth.month ∧ asOf.day < birth.day) then 1 else 0))) :=
  ⟨rfl, by decide, noDataForAge_signal wInp wLtEmpty wToday rfl⟩

/-- C9 counterexample: a projection run that passes the preconditions (the
life table has the user's current age, 30) but whose table only reaches
`maxAge = 50`: the code emits zero rows, while `maxAge - 62 + 1 = -11 ≠ 0`,
so the claimed row count `maxAge - 62 + 1` is wrong as stated. -/
theorem projection_row_count_counterexample :
    cLt.survivorsByAge (getAgeYears cInp.birth wToday) = some 1000 ∧
    calculateSchedule cInp cLt wToday = ProjectionResult.rows [] ∧
    (((([] : List ProjectionRow)).length : ℤ) ≠ cLt.maxAge - 62 + 1) := by
  refine ⟨?_, ?_, ?_⟩
  · norm_num [cLt, cInp, wToday, getAgeYears]
  · norm_num [calculateSchedule, getAgeYears, cInp, cLt, wToday, ageRange,
      ageList, runRows]
  · norm_num [cLt]

/-- C9 (amended): a projection run that passes its preconditions emits
`(maxAge - 61).toNat` rows — exactly `maxAge - 62 + 1` whenever
`maxAge ≥ 62`, and zero rows when `maxAge < 62` — one row per age from 62
up to `maxAge` in strictly increasing order; the first simulated year (age
62) starts from a zero balance with a prior-year interest of zero, and each
later year starts from the previous row's ending balance and interest. -/
theorem projection_rows_structure
    (inputs : ProjectionInputs) (lt : LifeTable) (today : SimpleDate)
    (rs : List ProjectionRow) (baseNum : ℚ)
    (hrun : calculateSchedule inputs lt today = ProjectionResult.rows rs)
    (hbase : lt.survivorsByAge (getAgeYears inputs.birth today) = some baseNum) :
    rs.length = (lt.maxAge - 61).toNat ∧
    (62 ≤ lt.maxAge → (rs.length : ℤ) = lt.maxAge - 62 + 1) ∧
    (lt.maxAge < 62 → rs = []) ∧
    (∀ (i : ℕ) (r : ProjectionRow), rs.get? i = some r → r.age = 62 + (i : ℤ)) ∧
    (∀ r : ProjectionRow, rs.get? 0 = some r →
      r.endOfYearBalance = (computeYearEndWithTax 0
        (if (62 : ℤ) ≥ inputs.retirementAge then
          computeAdjustedBenefit inputs.fullRetirementBenefit
              inputs.retirementAge * (1 - inputs.taxPct / 100)
        else 0) inputs.annualRate inputs.taxPct 0).endBalance) ∧
    (∀ (i : ℕ) (r r' : ProjectionRow), rs.get? i = some r →
      rs.get? (i + 1) = some r' →
      r'.endOfYearBalance = (computeYearEndWithTax r.endOfYearBalance
        (if r'.age ≥ inputs.retirementAge then
          computeAdjustedBenefit inputs.fullRetirementBenefit
              inputs.retirementAge * (1 - inputs.taxPct / 100)
        else 0) inputs.annualRate inputs.taxPct
        r.interestEarnedThisYear).endBalance) := by
  rw [calculateSchedule_eq_rows inputs lt today baseNum hbase] at hrun
  injection hrun with hrun
  subst hrun
  have hlen : (runRows (projRowStep inputs.retirementAge
      (computeAdjustedBenefit inputs.fullRetirementBenefit inputs.retirementAge *
        (1 - inputs.taxPct / 100)) inputs.annualRate inputs.taxPct
      (getAgeYears inputs.birth today) lt baseNum inputs.birth.year)
      (ageRange lt.maxAge) ⟨0, 0, some 0⟩).length = (lt.maxAge - 61).toNat := by
    rw [runRows_length, ageRange, ageList_length]
  refine ⟨hlen, ?_, ?_, ?_, ?_, ?_⟩
  · intro h62
    rw [hlen]
    omega
  · intro hlt
    have : (lt.maxAge - 61).toNat = 0 := by omega
    rw [this] at hlen
    exact List.length_eq_zero.mp hlen
  · intro i r hr
    obtain ⟨a, s', ha, hshape⟩ := runRows_get?_shape _ _ _ i r hr
    subst hshape
    simp only [ageRange] at ha
    have := ageList_get? _ _ _ _ ha
    simp only [projRowStep]
    omega
  · intro r h0
    obtain ⟨a, _, ha, _⟩ := runRows_get?_shape _ _ _ 0 r h0
    have ha62 : a = 62 := by
      simp only [ageRange] at ha
      have := ageList_get? _ _ _ _ ha
      omega
    subst ha62
    have hzero := runRows_get?_zero _ _ _ 62 r ha h0
    subst hzero
    simp only [projRowStep]
  · intro i r r' hr hr'
    obtain ⟨a, s', ha, _⟩ := runRows_get?_shape _ _ _ (i + 1) r' hr'
    have hchain := runRows_get?_chain _
      (projRowStep_snd inputs.retirementAge _ inputs.annualRate inputs.taxPct
        _ lt baseNum inputs.birth.year) _ _ i a r r' hr hr' ha
    subst hchain
    simp only [projRowStep, stateOfRow]

theorem projection_rows_structure_witness :
    calculateSchedule wInp wLt wToday = ProjectionResult.rows wRows ∧
    wLt.survivorsByAge (getAgeYears wInp.birth wToday) = some 100 ∧
    wRows.length = (wLt.maxAge - 61).toNat ∧
    (62 ≤ wLt.maxAge → (wRows.length : ℤ) = wLt.maxAge - 62 + 1) :=
  ⟨wRun, rfl,
   (projection_rows_structure wInp wLt wToday wRows 100 wRun rfl).1,
   (projection_rows_structure wInp wLt wToday wRows 100 wRun rfl).2.1⟩

theorem projRow_prob_none_ev_none
    (R : ℤ) (net rr t : ℚ) (u : ℤ) (lt : LifeTable) (b : ℚ) (byr : ℤ)
    (ages : List ℤ) (s : ProjState) (i : ℕ) (r : ProjectionRow)
    (hr : (runRows (projRowStep R net rr t u lt b byr) ages s).get? i = some r)
    (hp : r.survivalProb = none) : r.expectedValue = none := by
  obtain ⟨a, s', ha, hshape⟩ := runRows_get?_shape _ _ _ i r hr
  subst hshape
  simp only [projRowStep] at hp ⊢
  rw [hp]
  split
  · rfl
  · cases hse : s'.expectedValue
    · rfl
    · rfl

theorem projRow_ev_none_step
    (R : ℤ) (net rr t : ℚ) (u : ℤ) (lt : LifeTable) (b : ℚ) (byr : ℤ)
    (maxAge : ℤ) (s : ProjState) (i : ℕ) (r r' : ProjectionRow)
    (hr : (runRows (projRowStep R net rr t u lt b byr)
      (ageRange maxAge) s).get? i = some r)
    (hr' : (runRows (projRowStep R net rr t u lt b byr)
      (ageRange maxAge) s).get? (i + 1) = some r')
    (he : r.expectedValue = none) : r'.expectedValue = none := by
  obtain ⟨a, s', ha, _⟩ := runRows_get?_shape _ _ _ (i + 1) r' hr'
  have hchain := runRows_get?_chain _ (projRowStep_snd R net rr t u lt b byr)
    _ _ i a r r' hr hr' ha
  have hane : a ≠ 62 := by
    simp only [ageRange] at ha
    have := ageList_get? _ _ _ _ ha
    omega
  subst hchain
  simp only [projRowStep, stateOfRow]
  rw [if_neg hane, he]
  rfl

theorem runRows_balance_independent (R : ℤ) (net rr t : ℚ) (u1 u2 : ℤ)
    (lt1 lt2 : LifeTable) (b1 b2 : ℚ) (byr1 byr2 : ℤ) :
    ∀ (ages : List ℤ) (s1 s2 : ProjState),
      s1.balance = s2.balance → s1.priorYearInterest = s2.priorYearInterest →
      ∀ (i : ℕ) (r1 r2 : ProjectionRow),
        (runRows (projRowStep R net rr t u1 lt1 b1 byr1) ages s1).get? i =
          some r1 →
        (runRows (projRowStep R net rr t u2 lt2 b2 byr2) ages s2).get? i =
          some r2 →
        r1.endOfYearBalance = r2.endOfYearBalance ∧
        r1.interestEarnedThisYear = r2.interestEarnedThisYear := by
  intro ages
  induction ages with
  | nil => intro s1 s2 hb hp i r1 r2 h1 h2; simp [runRows] at h1
  | cons a rest ih =>
      intro s1 s2 hb hp i r1 r2 h1 h2
      simp only [runRows] at h1 h2
      cases i with
      | zero =>
          simp only [List.get?_cons_zero] at h1 h2
          injection h1 with h1
          injection h2 with h2
          rw [← h1, ← h2]
          simp only [projRowStep]
          rw [hb, hp]
          exact ⟨rfl, rfl⟩
      | succ i =>
          simp only [List.get?_cons_succ] at h1 h2
          refine ih (projRowStep R net rr t u1 lt1 b1 byr1 a s1).2
            (projRowStep R net rr t u2 lt2 b2 byr2 a s2).2 ?_ ?_ i r1 r2 h1 h2
          · simp only [projRowStep]
            rw [hb, hp]
          · simp only [projRowStep]
            rw [hb, hp]

/-- C10: if some emitted row has an undefined survival probability, then
that row's expected value and every subsequent row's expected value is
undefined (`NaN` poisons the cumulative sum permanently), while every row's
end-of-year balance and interest are the ordinary simulation results,
unaffected by the life table beyond its `maxAge` bound: two runs over
tables with the same `maxAge` produce identical balances and interests row
by row. -/
theorem nan_poisoning_and_balance_unaffected
    (inputs : ProjectionInputs) (lt lt2 : LifeTable) (today : SimpleDate)
    (rs rs2 : List ProjectionRow) (baseNum baseNum2 : ℚ)
    (hrun : calculateSchedule inputs lt today = ProjectionResult.rows rs)
    (hbase : lt.survivorsByAge (getAgeYears inputs.birth today) = some baseNum)
    (hrun2 : calculateSchedule inputs lt2 today = ProjectionResult.rows rs2)
    (hbase2 : lt2.survivorsByAge (getAgeYears inputs.birth today) =
      some baseNum2)
    (hmax : lt.maxAge = lt2.maxAge) :
    (∀ (i : ℕ) (r : ProjectionRow), rs.get? i = some r →
      r.survivalProb = none →
      ∀ (j : ℕ), i ≤ j → ∀ r2 : ProjectionRow, rs.get? j = some r2 →
        r2.expectedValue = none) ∧
    (∀ (j : ℕ) (r1 r2 : ProjectionRow), rs.get? j = some r1 →
      rs2.get? j = some r2 →
      r1.endOfYearBalance = r2.endOfYearBalance ∧
      r1.interestEarnedThisYear = r2.interestEarnedThisYear) := by
  constructor
  · rw [calculateSchedule_eq_rows inputs lt today baseNum hbase] at hrun
    injection hrun with hrun
    subst hrun
    intro i r hi hp j hij
    induction j, hij using Nat.le_induction with
    | base =>
        intro r2 h2
        rw [hi] at h2
        injection h2 with h2
        subst h2
        exact projRow_prob_none_ev_none _ _ _ _ _ _ _ _ _ _ i r hi hp
    | succ j hij ih =>
        intro r2 h2
        have hlen := (List.get?_eq_some.mp h2).1
        have hjlt : j < (runRows (projRowStep inputs.retirementAge
            (computeAdjustedBenefit inputs.fullRetirementBenefit
                inputs.retirementAge * (1 - inputs.taxPct / 100))
            inputs.annualRate inputs.taxPct (getAgeYears inputs.birth today)
            lt baseNum inputs.birth.year)
            (ageRange lt.maxAge) ⟨0, 0, some 0⟩).length := by omega
    -- obtain the row at index j and push the none through one step
        have hj := List.get?_eq_get hjlt
        have hevj := ih _ hj
        exact projRow_ev_none_step _ _ _ _ _ _ _ _ _ _ j _ r2 hj h2 hevj
  · rw [calculateSchedule_eq_rows inputs lt today baseNum hbase] at hrun
    rw [calculateSchedule_eq_rows inputs lt2 today baseNum2 hbase2] at hrun2
    injection hrun with hrun
    injection hrun2 with hrun2
    subst hrun
    subst hrun2
    rw [hmax]
    intro j r1 r2 h1 h2
    exact runRows_balance_independent inputs.retirementAge _ inputs.annualRate
      inputs.taxPct _ _ lt lt2 baseNum baseNum2 inputs.birth.year
      inputs.birth.year (ageRange lt2.maxAge) _ _ rfl rfl j r1 r2 h1 h2

theorem wRunNaN :
    calculateSchedule wInpNaN wLtNaN wToday = ProjectionResult.rows wRowsNaN := by
  norm_num [calculateSchedule, computeAdjustedBenefit, getAgeYears, wInpNaN,
    wLtNaN, wToday, wRowsNaN, ageRange, ageList, runRows, projRowStep,
    survivalProbOf, computeYearEndWithTax_zero]

theorem nan_poisoning_and_balance_unaffected_witness :
    calculateSchedule wInpNaN wLtNaN wToday = ProjectionResult.rows wRowsNaN ∧
    wLtNaN.survivorsByAge (getAgeYears wInpNaN.birth wToday) = some 100 ∧
    (∀ (i : ℕ) (r : ProjectionRow), wRowsNaN.get? i = some r →
      r.survivalProb = none →
      ∀ (j : ℕ), i ≤ j → ∀ r2 : ProjectionRow, wRowsNaN.get? j = some r2 →
        r2.expectedValue = none) ∧
    (∀ (j : ℕ) (r1 r2 : ProjectionRow), wRowsNaN.get? j = some r1 →
      wRowsNaN.get? j = some r2 →
      r1.endOfYearBalance = r2.endOfYearBalance ∧
      r1.interestEarnedThisYear = r2.interestEarnedThisYear) :=
  ⟨wRunNaN, rfl,
   (nan_poisoning_and_balance_unaffected wInpNaN wLtNaN wLtNaN wToday
     wRowsNaN wRowsNaN 100 100 wRunNaN rfl wRunNaN rfl rfl).1,
   (nan_poisoning_and_balance_unaffected wInpNaN wLtNaN wLtNaN wToday
     wRowsNaN wRowsNaN 100 100 wRunNaN rfl wRunNaN rfl rfl).2⟩

end SocialCalc
